import Mathlib

/-!
Verification of the pacgo terminal chase game (src/source/main.go, final
revision).  The game state is embedded shallowly: the maze is a list of
rows of characters exactly as Go stores `[]string`; sprites carry the
four integer fields of the Go `sprite` struct; the game-loop body, the
collision pass and the pill timer are translated function by function
from the source.  Go `int` is modelled by `Int` (no overflow is reachable
at these magnitudes); out-of-bounds indexing, which panics in Go, is only
ever exercised under the well-formedness hypotheses that rule it out.
-/

namespace PacGo

/-- Go struct `sprite`: current position and start position. -/
structure Sprite where
  row : Int
  col : Int
  startRow : Int
  startCol : Int
deriving DecidableEq, Repr

/-- Go type `GhostStatus` with its two constants `GhostStatusNormal`
and `GhostStatusBlue`. -/
inductive GhostStatus where
  | Normal
  | Blue
deriving DecidableEq, Repr

/-- Go struct `ghost`: a position sprite plus a status. -/
structure Ghost where
  position : Sprite
  status : GhostStatus
deriving DecidableEq, Repr

/-- The mutable globals of main.go gathered into one record:
`maze`, `player`, `ghosts`, `score`, `numDots`, `lives`. -/
structure GameState where
  maze : List (List Char)
  player : Sprite
  ghosts : List Ghost
  score : Int
  numDots : Int
  lives : Int
deriving DecidableEq, Repr

/-- Number of columns, as Go computes it via `len(maze[0])`. -/
def cols (m : List (List Char)) : Nat := (m.getD 0 []).length

/-- Character at `maze[r][c]`.  Go panics when out of bounds; every use
below is guarded by bounds hypotheses, so the default value is never
relevant to a theorem. -/
def mazeGet (m : List (List Char)) (r c : Int) : Char :=
  (m.getD r.toNat []).getD c.toNat ' '

/-- The maze as loaded: nonempty, nonzero width, all rows equal length
(the maze files shipped with the game are rectangular). -/
def WFmaze (m : List (List Char)) : Prop :=
  0 < m.length ∧ 0 < cols m ∧ ∀ row ∈ m, row.length = cols m

/-- Bounds test: `0 <= row < rowCount` and `0 <= col < colCount`. -/
def InBounds (m : List (List Char)) (r c : Int) : Prop :=
  0 ≤ r ∧ r < (m.length : Int) ∧ 0 ≤ c ∧ c < (cols m : Int)

/-- A state whose maze is well formed and whose player is in bounds:
exactly the states in which the Go code indexes without panicking. -/
def WF (s : GameState) : Prop :=
  WFmaze s.maze ∧ InBounds s.maze s.player.row s.player.col

instance (m : List (List Char)) : Decidable (WFmaze m) := by
  unfold WFmaze; infer_instance

instance (m : List (List Char)) (r c : Int) : Decidable (InBounds m r c) := by
  unfold InBounds; infer_instance

instance (s : GameState) : Decidable (WF s) := by
  unfold WF; infer_instance

/-- The direction switch of `makeMove` (main.go lines 566-591): circular
movement at the boundary.  An unrecognised direction leaves the position
unchanged (no switch case matches). -/
def wrapMove (m : List (List Char)) (oldRow oldCol : Int) (dir : String) :
    Int × Int :=
  match dir with
  | "UP" =>
      let newRow := oldRow - 1
      (if newRow < 0 then (m.length : Int) - 1 else newRow, oldCol)
  | "DOWN" =>
      let newRow := oldRow + 1
      (if newRow = (m.length : Int) then 0 else newRow, oldCol)
  | "RIGHT" =>
      let newCol := oldCol + 1
      (oldRow, if newCol = (cols m : Int) then 0 else newCol)
  | "LEFT" =>
      let newCol := oldCol - 1
      (oldRow, if newCol < 0 then (cols m : Int) - 1 else newCol)
  | _ => (oldRow, oldCol)

/-- Function `makeMove` (main.go lines 566-602): the direction switch above
followed by the wall check `if maze[newRow][newCol] == '#' { keep old }`. -/
def makeMove (m : List (List Char)) (oldRow oldCol : Int) (dir : String) :
    Int × Int :=
  let pos := wrapMove m oldRow oldCol dir
  if mazeGet m pos.1 pos.2 = '#' then (oldRow, oldCol) else pos

/-- The inline `removeDot` closure of `movePlayer` (main.go line 612):
`maze[row] = maze[row][0:col] + " " + maze[row][col+1:]`. -/
def removeDot (m : List (List Char)) (row col : Int) : List (List Char) :=
  m.set row.toNat
    ((m.getD row.toNat []).take col.toNat ++ [' '] ++
      (m.getD row.toNat []).drop (col.toNat + 1))

/-- Function `movePlayer` (main.go lines 608-627).  The Boolean of the result
records whether `go processPill()` was spawned: the status side
effect happens inside that spawned task, not here. -/
def movePlayer (s : GameState) (dir : String) : GameState × Bool :=
  let pos := makeMove s.maze s.player.row s.player.col dir
  let player' := { s.player with row := pos.1, col := pos.2 }
  match mazeGet s.maze pos.1 pos.2 with
  | '.' =>
      ({ s with player := player', numDots := s.numDots - 1,
                score := s.score + 1,
                maze := removeDot s.maze pos.1 pos.2 }, false)
  | 'X' =>
      ({ s with player := player', score := s.score + 10,
                maze := removeDot s.maze pos.1 pos.2 }, true)
  | _ => ({ s with player := player' }, false)

/-- Function `moveGhosts` (main.go lines 648-653), with the stream of random
directions drawn by `drawDirection` made an explicit parameter, one per
ghost in order.  The random generator always yields a direction, so the
second branch (directions exhausted) is unreachable in the source. -/
def moveGhosts (m : List (List Char)) :
    List Ghost → List String → List Ghost
  | [], _ => []
  | gs, [] => gs
  | g :: gs, dir :: ds =>
      let pos := makeMove m g.position.row g.position.col dir
      { g with position := { g.position with row := pos.1, col := pos.2 } }
        :: moveGhosts m gs ds

/-- One iteration of the collision loop body (main.go lines 863-881) for
a single ghost: given the current player sprite and lives, returns the
updated player, lives and ghost.  Note that the source, at line 874,
assigns `player.startRow` to BOTH coordinates of the respawn. -/
def collideOne (p : Sprite) (l : Int) (g : Ghost) : Sprite × Int × Ghost :=
  if p.row = g.position.row ∧ p.col = g.position.col then
    match g.status with
    | GhostStatus.Normal =>
        let l' := l - 1
        if l' ≠ 0 then
          ({ p with row := p.startRow, col := p.startRow }, l', g)
        else (p, l', g)
    | GhostStatus.Blue =>
        let gpos := { g.position with
                      row := g.position.startRow, col := g.position.startCol }
        (p, l, { g with status := GhostStatus.Normal, position := gpos })
  else (p, l, g)

/-- The collision loop threaded over the ghost list in order, as the
`for _, g := range ghosts` loop does. -/
def collideFold : Sprite → Int → List Ghost → Sprite × Int × List Ghost
  | p, l, [] => (p, l, [])
  | p, l, g :: gs =>
      let r := collideOne p l g
      let rest := collideFold r.1 r.2.1 gs
      (rest.1, rest.2.1, r.2.2 :: rest.2.2)

/-- The whole collision pass of the game loop (main.go lines 859-882). -/
def processCollisions (s : GameState) : GameState :=
  let r := collideFold s.player s.lives s.ghosts
  { s with player := r.1, lives := r.2.1, ghosts := r.2.2 }

/-- Number of Dot cells still present in the grid. -/
def countDots (m : List (List Char)) : Nat :=
  (m.map (fun row => row.count '.')).sum

/-- One step of the character scan of `loadMaze` (main.go lines 520-531):
`P` records the player (start = current), `G` appends a Normal ghost,
`.` increments `numDots`. -/
def scanChar (row col : Nat) (acc : Sprite × List Ghost × Int) (ch : Char) :
    Sprite × List Ghost × Int :=
  match ch with
  | 'P' => ({ row := (row : Int), col := (col : Int),
              startRow := (row : Int), startCol := (col : Int) },
            acc.2.1, acc.2.2)
  | 'G' => (acc.1,
            acc.2.1 ++ [{ position := { row := (row : Int), col := (col : Int),
                                        startRow := (row : Int),
                                        startCol := (col : Int) },
                          status := GhostStatus.Normal }],
            acc.2.2)
  | '.' => (acc.1, acc.2.1, acc.2.2 + 1)
  | _ => acc

/-- Scan of one maze line with a running column index. -/
def scanLine (row : Nat) :
    Nat → List Char → (Sprite × List Ghost × Int) → Sprite × List Ghost × Int
  | _, [], acc => acc
  | col, ch :: rest, acc => scanLine row (col + 1) rest (scanChar row col acc ch)

/-- Scan of all maze lines with a running row index. -/
def scanMaze :
    Nat → List (List Char) → (Sprite × List Ghost × Int) →
      Sprite × List Ghost × Int
  | _, [], acc => acc
  | row, line :: rest, acc => scanMaze (row + 1) rest (scanLine row 0 line acc)

/-- Function `loadMaze` (main.go lines 505-534) applied to the already-scanned
lines of the maze file, together with the initial values of the
remaining globals (`score = 0`, `lives = 3`, zero-valued player sprite
when the file contains no `P`). -/
def loadMaze (lines : List (List Char)) : GameState :=
  let r := scanMaze 0 lines
    ({ row := 0, col := 0, startRow := 0, startCol := 0 }, [], 0)
  { maze := lines, player := r.1, ghosts := r.2.1,
    score := 0, numDots := r.2.2, lives := 3 }

/-- Outcome labels for the loop exit (spec section 4.6): the source
breaks out of the loop on `numDots == 0 || lives <= 0`; the win case is
the dot count reaching zero, checked first. -/
inductive GameResult where
  | Won
  | Lost
deriving DecidableEq, Repr

/-- The game-over test of the loop (main.go line 888), labelled
with the outcome: `numDots == 0` reports a win, otherwise `lives <= 0`
reports a loss, otherwise the loop continues. -/
def loopExit (s : GameState) : Option GameResult :=
  if s.numDots = 0 then some GameResult.Won
  else if s.lives ≤ 0 then some GameResult.Lost
  else none

/-- One body of the game loop (main.go lines 846-899 up to the exit
check): the non-blocking `select` yields at most one input (`none` when
the default case fires); `ESC` zeroes `lives` before `movePlayer`; then
ghosts move with the supplied random directions and collisions are
resolved.  The Boolean reports whether this tick spawned
`go processPill()`. -/
def tick (s : GameState) (inp : Option String) (dirs : List String) :
    GameState × Bool :=
  let moved :=
    match inp with
    | some cmd =>
        let s0 := if cmd = "ESC" then { s with lives := 0 } else s
        movePlayer s0 cmd
    | none => (s, false)
  let s2 := { moved.1 with ghosts := moveGhosts moved.1.maze moved.1.ghosts dirs }
  (processCollisions s2, moved.2)

/-- The game loop run over a script of per-tick inputs and random ghost
directions: after each tick the exit check runs; `none` means the script
ended with the loop still running.  The inter-tick sleep is real time
and is not modelled. -/
def runLoop : GameState → List (Option String × List String) →
    Option (GameResult × GameState)
  | _, [] => none
  | s, (inp, dirs) :: rest =>
      let s' := (tick s inp dirs).1
      match loopExit s' with
      | some r => some (r, s')
      | none => runLoop s' rest

/-- Result of one `readInput` call as seen by the input goroutine:
either a decoded string or a read error. -/
inductive ReadResult where
  | ok (s : String)
  | err
deriving DecidableEq, Repr

/-- What one iteration of the input goroutine (main.go lines 834-843)
publishes on the channel: on a read error it logs, sends `"ESC"`, and
then still sends the (empty) string returned by `readInput`; otherwise
it sends the decoded string. -/
def readerEmits : ReadResult → List String
  | ReadResult.err => ["ESC", ""]
  | ReadResult.ok s => [s]

/-- The unconditional `for` loop of the input goroutine over a sequence of
read results: every result is processed, errors included — the loop
never terminates itself. -/
def readerRun : List ReadResult → List String
  | [] => []
  | r :: rest => readerEmits r ++ readerRun rest

/-- Events on the ghost-status reader/writer lock. -/
inductive LockEvent where
  | acquireRead
  | releaseRead
deriving DecidableEq, Repr

/-- The `ghostStatusMx` read-lock events emitted by the collision loop
body for one ghost (main.go lines 863-881), in program order:
`RLock` on a position match; `RUnlock` at line 872 only inside the
`lives != 0` branch of the Normal case; `RUnlock` at line 877 in the
Blue case.  When the decrement makes `lives` zero, no release occurs. -/
def collideOneEvents (p : Sprite) (l : Int) (g : Ghost) : List LockEvent :=
  if p.row = g.position.row ∧ p.col = g.position.col then
    LockEvent.acquireRead ::
      (match g.status with
       | GhostStatus.Normal =>
           if l - 1 ≠ 0 then [LockEvent.releaseRead] else []
       | GhostStatus.Blue => [LockEvent.releaseRead])
  else []

/-- The lock events of the collision loop threaded over the ghost list,
with player and lives updated exactly as `collideFold` updates them. -/
def collideEventsFold : Sprite → Int → List Ghost → List LockEvent
  | _, _, [] => []
  | p, l, g :: gs =>
      let r := collideOne p l g
      collideOneEvents p l g ++ collideEventsFold r.1 r.2.1 gs

/-- The lock events of the whole collision pass. -/
def collisionEvents (s : GameState) : List LockEvent :=
  collideEventsFold s.player s.lives s.ghosts

/-!
Interleaving model of the pill subsystem (`processPill`, main.go lines
669-682, together with `time.Timer` and the `go processPill()` spawns).
Each `time.Timer` is a record of three flags: `stopped` (Stop was
called), `fired` (the timer elapsed and placed its value in its
buffered channel — Stop after this point does not drain the channel),
`consumed` (the value was received).  Each in-flight `processPill`
invocation is a process whose program counter walks the body:

  arm    = `pillMx.Lock(); updateGhosts(Blue); if pillTimer != nil
            { pillTimer.Stop() }; pillTimer = NewTimer(d);
            pillMx.Unlock()`  — one mutex-protected block;
  bind   = the evaluation of the global `pillTimer` in `<-pillTimer.C`
            (a racy read outside any lock);
  recv   = the channel receive itself, enabled only once the bound
            timer has fired and its value is unconsumed;
  revert = `pillMx.Lock(); pillTimer.Stop(); updateGhosts(Normal);
            pillMx.Unlock()` — note it stops the CURRENT global timer,
            whichever instance that now is.

`statuses` abstracts the status fields of the global ghost slice
(`updateGhosts` writes them all under the write lock).  A step returns
`none` when the event is disabled (blocked receive, fire of a stopped
or already-fired timer, step of a finished process), so a schedule that
executes to `some` state used only enabled events.
-/

/-- A `time.Timer` as observed by this program. -/
structure PillTimer where
  stopped : Bool
  fired : Bool
  consumed : Bool
deriving DecidableEq, Repr

/-- Program counter of one `processPill` invocation. -/
inductive PillPC where
  | arm
  | bind
  | recv
  | revert
  | done
deriving DecidableEq, Repr

/-- One in-flight `processPill` invocation: program counter and the
local value of `pillTimer` captured for the channel receive. -/
structure PillProc where
  pc : PillPC
  bound : Option Nat
deriving DecidableEq, Repr

/-- Shared state of the pill subsystem. -/
structure PillSystem where
  timers : List PillTimer
  pillTimer : Option Nat
  statuses : List GhostStatus
  procs : List PillProc
deriving DecidableEq, Repr

/-- Scheduler events: a timer elapsing, or one process advancing. -/
inductive PillEvent where
  | fire (t : Nat)
  | step (p : Nat)
deriving DecidableEq, Repr

/-- Method `timer.Stop()`: marks the timer stopped; a pending fired value is
not drained. -/
def stopTimer (ts : List PillTimer) (i : Nat) : List PillTimer :=
  match ts.get? i with
  | some t => ts.set i { t with stopped := true }
  | none => ts

/-- One scheduler step of the pill subsystem. -/
def pillStep (sys : PillSystem) : PillEvent → Option PillSystem
  | PillEvent.fire i =>
      match sys.timers.get? i with
      | some t =>
          if t.stopped ∨ t.fired then none
          else some { sys with timers := sys.timers.set i { t with fired := true } }
      | none => none
  | PillEvent.step p =>
      match sys.procs.get? p with
      | none => none
      | some proc =>
          match proc.pc with
          | PillPC.arm =>
              let ts :=
                match sys.pillTimer with
                | some i => stopTimer sys.timers i
                | none => sys.timers
              some { sys with
                statuses := sys.statuses.map (fun _ => GhostStatus.Blue),
                timers := ts ++ [{ stopped := false, fired := false,
                                   consumed := false }],
                pillTimer := some ts.length,
                procs := sys.procs.set p { proc with pc := PillPC.bind } }
          | PillPC.bind =>
              match sys.pillTimer with
              | some i =>
                  let proc' : PillProc := { pc := PillPC.recv, bound := some i }
                  some { sys with procs := sys.procs.set p proc' }
              | none => none
          | PillPC.recv =>
              match proc.bound with
              | some i =>
                  match sys.timers.get? i with
                  | some t =>
                      if t.fired ∧ ¬ t.consumed then
                        some { sys with
                          timers := sys.timers.set i { t with consumed := true },
                          procs := sys.procs.set p { proc with pc := PillPC.revert } }
                      else none
                  | none => none
              | none => none
          | PillPC.revert =>
              let ts :=
                match sys.pillTimer with
                | some i => stopTimer sys.timers i
                | none => sys.timers
              some { sys with
                timers := ts,
                statuses := sys.statuses.map (fun _ => GhostStatus.Normal),
                procs := sys.procs.set p { proc with pc := PillPC.done } }
          | PillPC.done => none

/-- Execution of a schedule; `none` as soon as a scheduled event is
disabled. -/
def pillExec (sys : PillSystem) : List PillEvent → Option PillSystem
  | [] => some sys
  | e :: es =>
      match pillStep sys e with
      | some sys' => pillExec sys' es
      | none => none

/-- States reachable by the simulation: the loaded initial state, or any
tick applied to a reachable state in which the Go code indexes within
bounds (a non-`WF` state would panic in the source rather than step). -/
inductive Reachable : GameState → Prop where
  | load (lines : List (List Char)) : Reachable (loadMaze lines)
  | step (s : GameState) (inp : Option String) (dirs : List String) :
      Reachable s → WF s → Reachable (tick s inp dirs).1

/-! Concrete states used by witnesses and counterexamples. -/

/-- A 3x5 maze file: border of walls, player start, one dot, one pill. -/
def mazeA : List (List Char) :=
  ["#####".toList, "#P.X#".toList, "#####".toList]

/-! Concrete states, schedules and traces used by witnesses and
counterexamples below. -/

/-- A state whose single ghost is Blue and shares the player's cell;
the start position of the ghost (1,2) differs from its current one. -/
def sBlueHit : GameState :=
  { maze := ["####".toList, "#  #".toList, "####".toList],
    player := { row := 1, col := 1, startRow := 1, startCol := 1 },
    ghosts := [{ position := { row := 1, col := 1, startRow := 1, startCol := 2 },
                 status := GhostStatus.Blue }],
    score := 0, numDots := 1, lives := 3 }

/-- A state where the player stands on a Normal ghost and the player's
start row (1) differs from its start column (2). -/
def sNormalHit : GameState :=
  { maze := ["#####".toList, "#   #".toList, "#   #".toList, "#####".toList],
    player := { row := 2, col := 3, startRow := 1, startCol := 2 },
    ghosts := [{ position := { row := 2, col := 3, startRow := 2, startCol := 3 },
                 status := GhostStatus.Normal }],
    score := 0, numDots := 1, lives := 3 }

/-- A state on its last life with a Normal ghost on the player's cell:
the collision drives Lives to 0. -/
def sLastLife : GameState :=
  { maze := ["###".toList, "# #".toList, "###".toList],
    player := { row := 1, col := 1, startRow := 1, startCol := 1 },
    ghosts := [{ position := { row := 1, col := 1, startRow := 1, startCol := 1 },
                 status := GhostStatus.Normal }],
    score := 0, numDots := 1, lives := 1 }

/-- A state about to eat the pill at (1,3) while a Normal ghost stands
on that very cell, boxed so the ghost stays put when told to move up. -/
def sPillTick : GameState :=
  { maze := ["#####".toList, "#.PX#".toList, "#####".toList],
    player := { row := 1, col := 2, startRow := 1, startCol := 2 },
    ghosts := [{ position := { row := 1, col := 3, startRow := 1, startCol := 3 },
                 status := GhostStatus.Normal }],
    score := 0, numDots := 1, lives := 3 }

/-- One `processPill` invocation over two Normal ghosts, no timer yet. -/
def pillInit1 : PillSystem :=
  { timers := [], pillTimer := none,
    statuses := [GhostStatus.Normal, GhostStatus.Normal],
    procs := [{ pc := PillPC.arm, bound := none }] }

/-- The uninterrupted life of that invocation: arm, bind, the timer
fires, receive, revert. -/
def goodTrace : List PillEvent :=
  [PillEvent.step 0, PillEvent.step 0, PillEvent.fire 0,
   PillEvent.step 0, PillEvent.step 0]

/-- Two `processPill` invocations (two pills eaten) over one ghost. -/
def pillInit2 : PillSystem :=
  { timers := [], pillTimer := none,
    statuses := [GhostStatus.Normal],
    procs := [{ pc := PillPC.arm, bound := none },
              { pc := PillPC.arm, bound := none }] }

/-- The race schedule: instance 0 arms and binds timer 0; timer 0 fires;
instance 1 arms (stopping timer 0 — too late — and installing timer 1);
instance 0 then receives the pending expiry and runs its revert, which
stops the CURRENT global timer (timer 1) and reverts all statuses. -/
def raceTrace : List PillEvent :=
  [PillEvent.step 0, PillEvent.step 0, PillEvent.fire 0,
   PillEvent.step 1, PillEvent.step 0, PillEvent.step 0]

/-- Re-arming before the first timer fires: instance 0 arms and binds
timer 0, then instance 1 arms, stopping timer 0 in time. -/
def rearmTrace : List PillEvent :=
  [PillEvent.step 0, PillEvent.step 0, PillEvent.step 1]

/-- A state one dot away from winning: no ghosts, the dot next to the
player. -/
def sWin : GameState :=
  { maze := ["####".toList, "#P.#".toList, "####".toList],
    player := { row := 1, col := 1, startRow := 1, startCol := 1 },
    ghosts := [], score := 0, numDots := 1, lives := 3 }

/-! Theorems about movement resolution. -/

theorem wrapMove_up (m : List (List Char)) (r c : Int) :
    wrapMove m r c "UP"
      = (if r - 1 < 0 then (m.length : Int) - 1 else r - 1, c) := rfl

theorem wrapMove_down (m : List (List Char)) (r c : Int) :
    wrapMove m r c "DOWN"
      = (if r + 1 = (m.length : Int) then 0 else r + 1, c) := rfl

theorem wrapMove_right (m : List (List Char)) (r c : Int) :
    wrapMove m r c "RIGHT"
      = (r, if c + 1 = (cols m : Int) then 0 else c + 1) := rfl

theorem wrapMove_left (m : List (List Char)) (r c : Int) :
    wrapMove m r c "LEFT"
      = (r, if c - 1 < 0 then (cols m : Int) - 1 else c - 1) := rfl

/-- C7: for every in-bounds position of a well-formed grid and each of
the four directions, the wraparound step of `makeMove` stays within
grid bounds, and the wraparound steps for Up then Down, or Left then
Right, compose to the identity on in-bounds positions. -/
theorem wrap_closure_inverse (m : List (List Char)) (r c : Int)
    (hWF : WFmaze m) (hIn : InBounds m r c) :
    (∀ dir ∈ ["UP", "DOWN", "LEFT", "RIGHT"],
        InBounds m (wrapMove m r c dir).1 (wrapMove m r c dir).2)
    ∧ wrapMove m (wrapMove m r c "UP").1 (wrapMove m r c "UP").2 "DOWN" = (r, c)
    ∧ wrapMove m (wrapMove m r c "LEFT").1 (wrapMove m r c "LEFT").2 "RIGHT"
        = (r, c) := by
  obtain ⟨hrows, hcols, -⟩ := hWF
  obtain ⟨h1, h2, h3, h4⟩ := hIn
  refine ⟨?_, ?_, ?_⟩
  · intro dir hdir
    simp only [List.mem_cons, List.not_mem_nil, or_false] at hdir
    rcases hdir with h | h | h | h <;> subst h <;>
      simp only [wrapMove_up, wrapMove_down, wrapMove_left, wrapMove_right] <;>
      unfold InBounds <;> split_ifs <;>
      exact ⟨by omega, by omega, by omega, by omega⟩
  · simp only [wrapMove_up, wrapMove_down]
    split_ifs <;> simp_all <;> omega
  · simp only [wrapMove_left, wrapMove_right]
    split_ifs <;> simp_all <;> omega

/-- Witness for C7 at a concrete maze and position. -/
theorem wrap_closure_inverse_witness :
    WFmaze mazeA ∧ InBounds mazeA 1 1
    ∧ wrapMove mazeA (wrapMove mazeA 1 1 "UP").1 (wrapMove mazeA 1 1 "UP").2
        "DOWN" = (1, 1) :=
  ⟨by decide, by decide,
    (wrap_closure_inverse mazeA 1 1 (by decide) (by decide)).2.1⟩

/-- C8: from an in-bounds position, when the wrapped candidate cell is a
wall `makeMove` keeps the original position, and otherwise it returns
the wrapped candidate. -/
theorem wall_exclusion (m : List (List Char)) (r c : Int) (dir : String)
    (hWF : WFmaze m) (hIn : InBounds m r c) :
    (mazeGet m (wrapMove m r c dir).1 (wrapMove m r c dir).2 = '#' →
        makeMove m r c dir = (r, c))
    ∧ (mazeGet m (wrapMove m r c dir).1 (wrapMove m r c dir).2 ≠ '#' →
        makeMove m r c dir = wrapMove m r c dir) := by
  unfold makeMove
  constructor <;> intro h <;> simp [h]

/-- Witness for C8: at (1,1) of the concrete maze the cell above is a
wall, so moving up keeps the position. -/
theorem wall_exclusion_witness : makeMove mazeA 1 1 "UP" = (1, 1) :=
  (wall_exclusion mazeA 1 1 "UP" (by decide) (by decide)).1 (by decide)

/-! Theorems about the collision pass. -/

/-- Counterexample to C1: in `sBlueHit` the collision with the Blue
ghost reverts it and leaves Lives alone, but the Score stays exactly as
it was — it does not increase by the pill bonus (10, the amount added
when the pill itself is eaten at main.go line 623).  No score is
awarded anywhere in the Blue branch (main.go lines 876-880). -/
theorem blue_collision_no_score_bonus_cex :
    sBlueHit.ghosts.map (fun g => g.status) = [GhostStatus.Blue]
    ∧ sBlueHit.player.row = 1 ∧ sBlueHit.player.col = 1
    ∧ sBlueHit.ghosts.map (fun g => g.position.row) = [1]
    ∧ sBlueHit.ghosts.map (fun g => g.position.col) = [1]
    ∧ (processCollisions sBlueHit).ghosts.map (fun g => g.status)
        = [GhostStatus.Normal]
    ∧ (processCollisions sBlueHit).lives = sBlueHit.lives
    ∧ (processCollisions sBlueHit).score = sBlueHit.score
    ∧ (processCollisions sBlueHit).score ≠ sBlueHit.score + 10 := by
  decide

/-- C1 as amended: a collision with an Empowered-Prey (Blue) pursuer
sets the status of that pursuer to Normal, resets its position to its own
start position, and leaves the player and Lives unchanged; the Score is
unchanged by the whole collision pass (the pill bonus is awarded at
pill consumption, not here). -/
theorem blue_collision_outcome (p : Sprite) (l : Int) (g : Ghost)
    (hrow : p.row = g.position.row) (hcol : p.col = g.position.col)
    (hst : g.status = GhostStatus.Blue) :
    ((collideOne p l g).1 = p
    ∧ (collideOne p l g).2.1 = l
    ∧ (collideOne p l g).2.2.status = GhostStatus.Normal
    ∧ (collideOne p l g).2.2.position.row = g.position.startRow
    ∧ (collideOne p l g).2.2.position.col = g.position.startCol)
    ∧ ∀ s : GameState, (processCollisions s).score = s.score := by
  refine ⟨?_, fun s => rfl⟩
  simp [collideOne, hrow, hcol, hst]

/-- Witness for the amended theorem of C1 at the concrete state. -/
theorem blue_collision_outcome_witness :
    (collideOne sBlueHit.player sBlueHit.lives
        (sBlueHit.ghosts.getD 0 ⟨⟨0, 0, 0, 0⟩, GhostStatus.Normal⟩)).2.2.status
      = GhostStatus.Normal := by
  exact (blue_collision_outcome sBlueHit.player sBlueHit.lives
    (sBlueHit.ghosts.getD 0 ⟨⟨0, 0, 0, 0⟩, GhostStatus.Normal⟩)
    (by decide) (by decide) (by decide)).1.2.2.1

/-- C3 is right and the code is wrong: the lethal collision decrements
Lives by one, but the respawn at main.go line 874 assigns
`player.startRow` to BOTH coordinates
(`player.row, player.col = player.startRow, player.startRow`), so the
column becomes the start row (1) instead of the start column (2).  The
spec flags this transcription slip itself (section 9). -/
theorem normal_collision_respawn_bug :
    (processCollisions sNormalHit).lives = sNormalHit.lives - 1
    ∧ (processCollisions sNormalHit).player.row = sNormalHit.player.startRow
    ∧ (processCollisions sNormalHit).player.col = sNormalHit.player.startRow
    ∧ (processCollisions sNormalHit).player.col ≠ sNormalHit.player.startCol := by
  decide

/-- C10 is right and the code is wrong: on the path where the collision
with a Normal ghost drives Lives to zero, the `RLock` taken at main.go
line 865 is never matched by an `RUnlock` — the only releases are at
line 872 (inside `lives != 0`) and line 877 (Blue branch).  At the
concrete last-life state the pass emits one acquire and no release. -/
theorem collision_lock_leak :
    (processCollisions sLastLife).lives = 0
    ∧ collisionEvents sLastLife = [LockEvent.acquireRead]
    ∧ (collisionEvents sLastLife).count LockEvent.acquireRead
        ≠ (collisionEvents sLastLife).count LockEvent.releaseRead := by
  decide

/-! Theorems about pill consumption and the status write (C2). -/

/-- Counterexample to C2: in the very tick that consumes the pill
(`spawned = true`, score raised by the pill bonus), the collision pass
still sees the stale Normal status of the ghost — that status is
unchanged and the collision is lethal (Lives drops by one) instead of
eating the ghost.  The status write happens inside the spawned
`processPill` task, which has not run within the tick. -/
theorem pill_same_tick_stale_status_cex :
    (tick sPillTick (some "RIGHT") ["UP"]).2 = true
    ∧ (tick sPillTick (some "RIGHT") ["UP"]).1.score = sPillTick.score + 10
    ∧ (tick sPillTick (some "RIGHT") ["UP"]).1.ghosts.map (fun g => g.status)
        = [GhostStatus.Normal]
    ∧ (tick sPillTick (some "RIGHT") ["UP"]).1.lives = sPillTick.lives - 1 := by
  decide

/-- C2 as amended: consuming a Pill does not perform the status write
synchronously — `movePlayer` leaves every ghost untouched and merely
spawns `processPill` (the returned flag); the write to Empowered-Prey
is the first action of that spawned task (`arm`), so the triggering
collision pass of the tick sees it only if the scheduler runs the task
first. -/
theorem pill_status_write_async (s : GameState) (dir : String) :
    ((movePlayer s dir).1.ghosts = s.ghosts)
    ∧ (mazeGet s.maze (makeMove s.maze s.player.row s.player.col dir).1
          (makeMove s.maze s.player.row s.player.col dir).2 = 'X' →
        (movePlayer s dir).2 = true)
    ∧ ∀ (sys : PillSystem) (p : Nat) (proc : PillProc),
        sys.procs.get? p = some proc → proc.pc = PillPC.arm →
        ∃ sys', pillStep sys (PillEvent.step p) = some sys'
          ∧ sys'.statuses = sys.statuses.map (fun _ => GhostStatus.Blue) := by
  refine ⟨?_, ?_, ?_⟩
  · simp only [movePlayer]
    split <;> rfl
  · intro h
    simp only [movePlayer, h]
  · intro sys p proc hget hpc
    obtain ⟨pc, bound⟩ := proc
    simp only at hpc
    subst hpc
    simp only [pillStep, hget]
    exact ⟨_, rfl, rfl⟩

/-- Witness for the amended theorem of C2 at the concrete pill-eating
state. -/
theorem pill_status_write_async_witness :
    (movePlayer sPillTick "RIGHT").1.ghosts = sPillTick.ghosts
    ∧ (movePlayer sPillTick "RIGHT").2 = true :=
  ⟨(pill_status_write_async sPillTick "RIGHT").1,
   (pill_status_write_async sPillTick "RIGHT").2.1 (by decide)⟩

/-! Theorems about the pill timer lifecycle (C4). -/

/-- Counterexample to C4: under `raceTrace` the expiry side effect of
the CANCELLED instance fires after its cancellation — the final
statuses are Normal even though instance 1 just set them Blue, the
fresh timer 1 ends up stopped (`fire 1` is impossible), and instance 1
can never complete its receive (both follow-up steps are disabled), so
the revert of the fresh Running instance never happens at all. -/
theorem pill_cancellation_race_cex :
    (pillExec pillInit2 raceTrace).map (fun sys => sys.statuses)
        = some [GhostStatus.Normal]
    ∧ (pillExec pillInit2 raceTrace).map (fun sys => sys.pillTimer)
        = some (some 1)
    ∧ (pillExec pillInit2 raceTrace).map (fun sys => sys.timers.get? 1)
        = some (some { stopped := true, fired := false, consumed := false })
    ∧ pillExec pillInit2 (raceTrace ++ [PillEvent.fire 1]) = none
    ∧ pillExec pillInit2 (raceTrace ++ [PillEvent.step 1, PillEvent.step 1])
        = none := by
  decide

/-- C4 as amended: re-arming stops the prior `time.Timer` and installs
a fresh one, and a Running instance that is never re-triggered reverts
every pursuer to Normal exactly once (and never again afterwards); when
the Stop of the re-arm precedes the firing of the prior timer, that timer
can never fire and its waiter blocks forever, so its expiry side effect
indeed never runs.  But — per the counterexample — when the prior timer
fired before Stop, its pending expiry is still processed after
cancellation and stomps the fresh instance. -/
theorem pill_timer_lifecycle :
    ((pillExec pillInit1 [PillEvent.step 0]).map (fun sys => sys.statuses)
        = some [GhostStatus.Blue, GhostStatus.Blue])
    ∧ ((pillExec pillInit1 goodTrace).map (fun sys => sys.statuses)
        = some [GhostStatus.Normal, GhostStatus.Normal])
    ∧ pillExec pillInit1 (goodTrace ++ [PillEvent.step 0]) = none
    ∧ pillExec pillInit1 (goodTrace ++ [PillEvent.fire 0]) = none
    ∧ ((pillExec pillInit2 rearmTrace).map
          (fun sys => (sys.statuses, sys.pillTimer))
        = some ([GhostStatus.Blue], some 1))
    ∧ pillExec pillInit2 (rearmTrace ++ [PillEvent.fire 0]) = none
    ∧ pillExec pillInit2 (rearmTrace ++ [PillEvent.step 0]) = none := by
  decide

/-! Lives can only decrease across a collision pass. -/

theorem movePlayer_lives (s : GameState) (dir : String) :
    (movePlayer s dir).1.lives = s.lives := by
  simp only [movePlayer]
  split <;> rfl

theorem collideOne_lives_le (p : Sprite) (l : Int) (g : Ghost) :
    (collideOne p l g).2.1 ≤ l := by
  obtain ⟨gp, gs⟩ := g
  cases gs <;> simp [collideOne] <;> split_ifs <;> simp <;> omega

theorem collideFold_lives_le (p : Sprite) (l : Int) (gs : List Ghost) :
    (collideFold p l gs).2.1 ≤ l := by
  induction gs generalizing p l with
  | nil => simp [collideFold]
  | cons g gs ih =>
      simp only [collideFold]
      exact le_trans (ih _ _) (collideOne_lives_le p l g)

theorem processCollisions_lives_le (s : GameState) :
    (processCollisions s).lives ≤ s.lives :=
  collideFold_lives_le s.player s.lives s.ghosts

/-- A tick that consumed `ESC` ends with non-positive lives: the loop
sets `lives = 0` before moving, nothing later in the tick increases
it. -/
theorem tick_esc_lives (s : GameState) (dirs : List String) :
    (tick s (some "ESC") dirs).1.lives ≤ 0 := by
  simp only [tick]
  refine le_trans (processCollisions_lives_le _) ?_
  simp [movePlayer_lives]

/-! Theorems about the loop exit and the input goroutine (C6, C9). -/

/-- C6: the game loop exits exactly on the game-over check — if the
tick left the dot count at zero it reports a win; otherwise if lives
are non-positive it reports a loss; otherwise the loop continues with
the remaining script (after the fixed inter-tick sleep, which is real
time and not modelled).  Nothing else terminates the loop. -/
theorem sim_loop_exit (s : GameState) (inp : Option String)
    (dirs : List String) (rest : List (Option String × List String)) :
    ((tick s inp dirs).1.numDots = 0 →
        runLoop s ((inp, dirs) :: rest)
          = some (GameResult.Won, (tick s inp dirs).1))
    ∧ ((tick s inp dirs).1.numDots ≠ 0 → (tick s inp dirs).1.lives ≤ 0 →
        runLoop s ((inp, dirs) :: rest)
          = some (GameResult.Lost, (tick s inp dirs).1))
    ∧ ((tick s inp dirs).1.numDots ≠ 0 → 0 < (tick s inp dirs).1.lives →
        runLoop s ((inp, dirs) :: rest) = runLoop (tick s inp dirs).1 rest) := by
  refine ⟨?_, ?_, ?_⟩
  · intro h1
    simp [runLoop, loopExit, h1]
  · intro h1 h2
    simp [runLoop, loopExit, h1, h2]
  · intro h1 h2
    have h2' : ¬ (tick s inp dirs).1.lives ≤ 0 := by omega
    simp [runLoop, loopExit, h1, h2']

/-- Witness for C6: eating the last dot ends the loop with a win. -/
theorem sim_loop_exit_witness :
    runLoop sWin [(some "RIGHT", [])]
      = some (GameResult.Won, (tick sWin (some "RIGHT") []).1) :=
  (sim_loop_exit sWin (some "RIGHT") [] []).1 (by decide)

/-- C9: on a read error the input goroutine publishes `ESC` (and then
the empty string `readInput` returned) and keeps looping over the
remaining reads; and a tick that consumes `ESC` zeroes lives, so the
tick ends in the regular game-over check reporting a loss (provided the
dot count, checked first, is not itself zero). -/
theorem input_error_escape :
    (∀ rest, readerRun (ReadResult.err :: rest) = "ESC" :: "" :: readerRun rest)
    ∧ (∀ (s : GameState) (dirs : List String),
        (tick s (some "ESC") dirs).1.lives ≤ 0)
    ∧ (∀ (s : GameState) (dirs : List String),
        (tick s (some "ESC") dirs).1.numDots ≠ 0 →
        loopExit (tick s (some "ESC") dirs).1 = some GameResult.Lost) := by
  refine ⟨fun rest => rfl, fun s dirs => tick_esc_lives s dirs, ?_⟩
  intro s dirs h
  simp only [loopExit]
  rw [if_neg h, if_pos (tick_esc_lives s dirs)]

/-- Witness for C9 at a concrete read sequence and game state. -/
theorem input_error_escape_witness :
    readerRun [ReadResult.err] = "ESC" :: "" :: readerRun []
    ∧ (tick sPillTick (some "ESC") ["UP"]).1.lives ≤ 0
    ∧ loopExit (tick sPillTick (some "ESC") ["UP"]).1 = some GameResult.Lost :=
  ⟨input_error_escape.1 [], input_error_escape.2.1 sPillTick ["UP"],
   input_error_escape.2.2 sPillTick ["UP"] (by decide)⟩

/-! Dot accounting (C5): helper lemmas, the reachability invariant,
and the per-consumption facts. -/

/-- Blanking one in-range cell removes exactly its contribution to the
dot count of the row. -/
theorem count_set_row (l : List Char) (c : Nat) (h : c < l.length) :
    (l.take c ++ [' '] ++ l.drop (c + 1)).count '.'
      + (if l.getD c ' ' = '.' then 1 else 0) = l.count '.' := by
  have hg : l.getD c ' ' = l[c] := by
    simp [List.getD_eq_getElem?_getD, List.getElem?_eq_getElem h]
  have hsplit : l.count '.' = (l.take c).count '.'
      + (l[c] :: l.drop (c + 1)).count '.' := by
    conv_lhs => rw [← List.take_append_drop c l, List.drop_eq_getElem_cons h]
    exact List.count_append '.' _ _
  have hcons : (l[c] :: l.drop (c + 1)).count '.'
      = (l.drop (c + 1)).count '.' + (if l[c] = '.' then 1 else 0) := by
    rw [List.count_cons]
    simp [beq_iff_eq]
  have hmid : ((l.take c ++ [' ']) ++ l.drop (c + 1)).count '.'
      = (l.take c).count '.' + (l.drop (c + 1)).count '.' := by
    rw [List.count_append, List.count_append, List.count_singleton]
    simp
  rw [hg, hmid, hsplit, hcons]
  split_ifs <;> omega

theorem countDots_cons (row : List Char) (m : List (List Char)) :
    countDots (row :: m) = row.count '.' + countDots m := by
  simp [countDots]

theorem countDots_set (m : List (List Char)) (r : Nat) (v : List Char)
    (h : r < m.length) :
    countDots (m.set r v) + (m.getD r []).count '.'
      = countDots m + v.count '.' := by
  induction m generalizing r with
  | nil => simp at h
  | cons row rest ih =>
      cases r with
      | zero => simp [countDots_cons]; omega
      | succ n =>
          simp only [List.set_cons_succ, countDots_cons, List.getD_cons_succ]
          have := ih n (by simpa using h)
          omega

/-- The direction switch keeps every in-bounds position in bounds. -/
theorem wrapMove_inBounds (m : List (List Char)) (r c : Int) (dir : String)
    (hWF : WFmaze m) (hIn : InBounds m r c) :
    InBounds m (wrapMove m r c dir).1 (wrapMove m r c dir).2 := by
  obtain ⟨hrows, hcols, -⟩ := hWF
  obtain ⟨h1, h2, h3, h4⟩ := hIn
  unfold wrapMove
  split <;> unfold InBounds <;> dsimp only <;> (try split_ifs) <;>
    exact ⟨by omega, by omega, by omega, by omega⟩

/-- Movement resolution keeps every in-bounds position in bounds. -/
theorem makeMove_inBounds (m : List (List Char)) (r c : Int) (dir : String)
    (hWF : WFmaze m) (hIn : InBounds m r c) :
    InBounds m (makeMove m r c dir).1 (makeMove m r c dir).2 := by
  simp only [makeMove]
  split_ifs
  · exact hIn
  · exact wrapMove_inBounds m r c dir hWF hIn

/-- Blanking an in-bounds cell of a well-formed maze removes exactly its
contribution to the dot count. -/
theorem removeDot_countDots (m : List (List Char)) (r c : Int)
    (hWF : WFmaze m) (hIn : InBounds m r c) :
    countDots (removeDot m r c) + (if mazeGet m r c = '.' then 1 else 0)
      = countDots m := by
  obtain ⟨hrows, hcols, hrect⟩ := hWF
  obtain ⟨h1, h2, h3, h4⟩ := hIn
  have hr : r.toNat < m.length := by omega
  have hrow : m.getD r.toNat [] = m[r.toNat] := by
    simp [List.getD_eq_getElem?_getD, List.getElem?_eq_getElem hr]
  have hrowlen : (m.getD r.toNat []).length = cols m := by
    rw [hrow]; exact hrect _ (List.getElem_mem hr)
  have hc : c.toNat < (m.getD r.toNat []).length := by rw [hrowlen]; omega
  have hset := countDots_set m r.toNat
    ((m.getD r.toNat []).take c.toNat ++ [' ']
      ++ (m.getD r.toNat []).drop (c.toNat + 1)) hr
  have hrowcnt := count_set_row (m.getD r.toNat []) c.toNat hc
  unfold removeDot mazeGet
  split_ifs at * <;> omega

/-- Function `movePlayer` preserves the counter/grid correspondence. -/
theorem movePlayer_numDots (s : GameState) (dir : String)
    (hWF : WF s) (hInv : s.numDots = (countDots s.maze : Int)) :
    (movePlayer s dir).1.numDots
      = (countDots (movePlayer s dir).1.maze : Int) := by
  obtain ⟨hm, hp⟩ := hWF
  have hIn := makeMove_inBounds s.maze s.player.row s.player.col dir hm hp
  have hcnt := removeDot_countDots s.maze
    (makeMove s.maze s.player.row s.player.col dir).1
    (makeMove s.maze s.player.row s.player.col dir).2 hm hIn
  simp only [movePlayer]
  split
  case _ heq => rw [heq] at hcnt; simp at hcnt; dsimp only; omega
  case _ heq => rw [heq] at hcnt; simp at hcnt; dsimp only; omega
  case _ => exact hInv

/-- A whole tick preserves the counter/grid correspondence: ghost
movement and the collision pass touch neither the maze nor the
counter. -/
theorem tick_numDots_inv (s : GameState) (inp : Option String)
    (dirs : List String) (hWF : WF s)
    (hInv : s.numDots = (countDots s.maze : Int)) :
    (tick s inp dirs).1.numDots
      = (countDots (tick s inp dirs).1.maze : Int) := by
  cases inp with
  | none => exact hInv
  | some cmd =>
      exact movePlayer_numDots _ cmd
        (by unfold WF WFmaze InBounds at *; split_ifs <;> exact hWF)
        (by split_ifs <;> exact hInv)

theorem scanChar_numDots (row col : Nat) (acc : Sprite × List Ghost × Int)
    (ch : Char) :
    (scanChar row col acc ch).2.2 = acc.2.2 + (if ch = '.' then 1 else 0) := by
  unfold scanChar
  split <;> simp_all

theorem scanLine_numDots (row : Nat) (l : List Char) :
    ∀ (col : Nat) (acc : Sprite × List Ghost × Int),
    (scanLine row col l acc).2.2 = acc.2.2 + (l.count '.' : Int) := by
  induction l with
  | nil => intro col acc; simp [scanLine]
  | cons ch rest ih =>
      intro col acc
      simp only [scanLine]
      rw [ih, scanChar_numDots, List.count_cons]
      simp [beq_iff_eq]
      split_ifs <;> push_cast <;> ring

theorem scanMaze_numDots (lines : List (List Char)) :
    ∀ (row : Nat) (acc : Sprite × List Ghost × Int),
    (scanMaze row lines acc).2.2 = acc.2.2 + (countDots lines : Int) := by
  induction lines with
  | nil => intro row acc; simp [scanMaze, countDots]
  | cons line rest ih =>
      intro row acc
      simp only [scanMaze]
      rw [ih, scanLine_numDots, countDots_cons]
      push_cast
      ring

/-- Function `loadMaze` establishes the invariant: the counter it produces is
exactly the number of Dot cells of the loaded grid. -/
theorem loadMaze_numDots (lines : List (List Char)) :
    (loadMaze lines).numDots = (countDots lines : Int) := by
  show (scanMaze 0 lines _).2.2 = _
  rw [scanMaze_numDots]
  simp

/-- The counter/grid correspondence holds at every reachable state. -/
theorem reachable_numDots (s : GameState) (h : Reachable s) :
    s.numDots = (countDots s.maze : Int) := by
  induction h with
  | load lines => exact loadMaze_numDots lines
  | step s inp dirs hr hWF ih => exact tick_numDots_inv s inp dirs hWF ih

/-- C5: at every reachable state the remaining-dot counter equals the
number of Dot cells still in the grid — hence it is never negative and
it is exactly zero precisely when the dots are gone; consuming a Dot
decrements the counter by exactly 1 and increments Score by 1;
consuming a Pill leaves the counter unchanged. -/
theorem dot_counter_invariant :
    (∀ s : GameState, Reachable s →
        s.numDots = (countDots s.maze : Int)
        ∧ 0 ≤ s.numDots
        ∧ (countDots s.maze = 0 → s.numDots = 0))
    ∧ (∀ (s : GameState) (dir : String),
        mazeGet s.maze (makeMove s.maze s.player.row s.player.col dir).1
            (makeMove s.maze s.player.row s.player.col dir).2 = '.' →
        (movePlayer s dir).1.numDots = s.numDots - 1
        ∧ (movePlayer s dir).1.score = s.score + 1)
    ∧ (∀ (s : GameState) (dir : String),
        mazeGet s.maze (makeMove s.maze s.player.row s.player.col dir).1
            (makeMove s.maze s.player.row s.player.col dir).2 = 'X' →
        (movePlayer s dir).1.numDots = s.numDots) := by
  refine ⟨?_, ?_, ?_⟩
  · intro s h
    have hInv := reachable_numDots s h
    exact ⟨hInv, by omega, fun h0 => by omega⟩
  · intro s dir h
    simp [movePlayer, h]
  · intro s dir h
    simp [movePlayer, h]

/-- Witness for C5: the loaded concrete maze satisfies the invariant;
eating its dot decrements the counter; eating the pill of `sPillTick`
does not. -/
theorem dot_counter_invariant_witness :
    (loadMaze mazeA).numDots = (countDots (loadMaze mazeA).maze : Int)
    ∧ (movePlayer (loadMaze mazeA) "RIGHT").1.numDots
        = (loadMaze mazeA).numDots - 1
    ∧ (movePlayer sPillTick "RIGHT").1.numDots = sPillTick.numDots :=
  ⟨(dot_counter_invariant.1 _ (Reachable.load mazeA)).1,
   (dot_counter_invariant.2.1 (loadMaze mazeA) "RIGHT" (by decide)).1,
   dot_counter_invariant.2.2 sPillTick "RIGHT" (by decide)⟩

end PacGo
